import Mathlib

/-!
Shallow embedding of the Upscale Session Controller (the `useUpscaler` hook):
its observable state (status / error / progress / result), the SSE line loop
of `upscale`, and the `cancel` / `reset` / `checkHealth` operations, together
with a small world model of the shared `abortControllerRef` used to reason
about a superseded in-flight call.
-/

namespace Upscaler

/-- Status values of the `ProcessingStatus` union type; the controller itself
only ever assigns `idle`, `processing`, `complete` and `error`. -/
inductive ProcessingStatus
  | idle
  | uploading
  | processing
  | complete
  | error
  deriving DecidableEq, Repr

/-- Progress payload exposed by the controller (`UpscaleProgress`). -/
structure UpscaleProgress where
  step : Int
  total : Int
  percent : Int
  preview : Option String := none
  message : Option String := none
  deriving DecidableEq, Repr

/-- Result payload exposed by the controller (`UpscaleResult`). -/
structure UpscaleResult where
  image : String
  originalSize : Int × Int
  upscaledSize : Int × Int
  method : Option String := none
  deriving DecidableEq, Repr

/-- Parsed payload of the health endpoint (`HealthResponse`). -/
structure HealthResponse where
  status : String
  model_loaded : Bool
  model_loading : Bool
  model_type : Option String := none
  gpu_available : Bool
  device : String
  error : Option String := none
  deriving DecidableEq, Repr

/-- The four reactive state cells of the hook: `status`, `error`, `progress`,
`result`. -/
structure HookState where
  status : ProcessingStatus
  error : Option String
  progress : Option UpscaleProgress
  result : Option UpscaleResult
  deriving DecidableEq, Repr

/-- Semantic content of a successfully parsed `data:` payload, keyed on its
`type` field; `unknown` covers a `type` matched by no `switch` case. -/
inductive EventData
  | start
  | progress (step : Int) (total : Int) (percent : Int)
      (preview : Option String) (message : Option String)
  | fallback
  | complete (image : String) (original_size : Int × Int)
      (upscaled_size : Int × Int) (method : Option String)
  | error (msg : String)
  | unknown
  deriving DecidableEq, Repr

/-- One decoded stream line as seen by the `for` loop: `data payload` is a line
starting with `"data: "`, where `payload = none` means `JSON.parse` of the
rest of the line throws a `SyntaxError` (malformed JSON) and `payload = some e`
is the parsed event; `notData` is any line not starting with `"data: "`
(empty lines, SSE comment lines, `event:` field lines, ...). -/
inductive SSELine
  | data (payload : Option EventData)
  | notData
  deriving DecidableEq, Repr

/-- Character-level reading of the source's test `line.startsWith("data: ")`:
the characters of `"data: "` are a prefix of the characters of the line. -/
def isDataLine (line : String) : Bool :=
  "data: ".toList.isPrefixOf line.toList

/-- Classification of a raw text line, following the source's test
`line.startsWith("data: ")` and the slice `line.slice(6)`; `parse` stands for
`JSON.parse` composed with the reading of the payload's fields. -/
def decodeLine (parse : String → Option EventData) (line : String) : SSELine :=
  if isDataLine line then SSELine.data (parse (line.drop 6)) else SSELine.notData

/-- Chunk reassembly of the read loop: the incoming chunk is appended to the
buffer, the buffer is split on newlines, the trailing (possibly incomplete)
piece is kept buffered and the complete lines are emitted to the `for` loop. -/
def feedChunk (buffer chunk : String) : List String × String :=
  let lines := (buffer ++ chunk).splitOn "\n"
  (lines.dropLast, lines.getLastD "")

/-- Body of the `for` loop for one line: non-`data:` lines are skipped; a
`SyntaxError` from `JSON.parse` is swallowed (`continue`); `start`, `progress`
and `fallback` replace the progress cell; `complete` fills the result, clears
progress and sets status `complete`; an `error` event throws an `Error`
carrying the event's message (rethrown by the inner catch since it is not a
`SyntaxError`), modelled as `Except.error`. -/
def processLine (s : HookState) : SSELine → Except String HookState
  | SSELine.notData => Except.ok s
  | SSELine.data none => Except.ok s
  | SSELine.data (some ed) =>
    match ed with
    | EventData.start =>
        Except.ok { s with progress := some { step := 0, total := 100, percent := 0 } }
    | EventData.progress st t p pv m =>
        Except.ok { s with progress := some { step := st, total := t, percent := p,
                                              preview := pv, message := m } }
    | EventData.fallback =>
        Except.ok { s with progress := some { step := 1, total := 3, percent := 33,
                                              message := some "Using Lanczos fallback..." } }
    | EventData.complete img os us m =>
        Except.ok { s with
          result := some { image := img, originalSize := os, upscaledSize := us, method := m },
          progress := none,
          status := ProcessingStatus.complete }
    | EventData.error msg => Except.error msg
    | EventData.unknown => Except.ok s

/-- The whole line loop: lines are processed in order; a thrown error stops the
loop and is reported together with the state reached at the throw point. -/
def processLines (s : HookState) : List SSELine → HookState × Option String
  | [] => (s, none)
  | l :: ls =>
    match processLine s l with
    | Except.ok s1 => processLines s1 ls
    | Except.error msg => (s, some msg)

/-- Outcome of awaiting each `reader.read()` after the delivered lines: either
the stream reports `done`, or the await rejects (`threw`), with the flag
recording whether the rejection is an `AbortError`. -/
inductive StreamEnd
  | done
  | threw (msg : String) (isAbortError : Bool)
  deriving DecidableEq, Repr

/-- Outcome of the `fetch` of `/upscale/stream` as seen by the controller:
`success hasBody lines ending` is a response with `res.ok` true, `hasBody`
telling whether `res.body` (hence the reader) exists, the decoded lines
delivered, and how the read loop ends; `httpError` is a response with
`res.ok` false; `thrown msg isAbortError` is a rejected `fetch`. -/
inductive FetchResult
  | success (hasBody : Bool) (lines : List SSELine) (ending : StreamEnd)
  | httpError (statusCode : Nat)
  | thrown (msg : String) (isAbortError : Bool)
  deriving DecidableEq, Repr

/-- State updates at the top of `upscale`: status `processing`, error
cleared, progress cleared, result cleared. -/
def startSession (s : HookState) : HookState :=
  { s with status := ProcessingStatus.processing, error := none,
           progress := none, result := none }

/-- Outer `catch` of `upscale`: an `AbortError` routes to `idle` without
setting an error; any other exception sets the error message and status
`error`. -/
def applyCatch (s : HookState) (msg : String) (isAbortError : Bool) : HookState :=
  if isAbortError then { s with status := ProcessingStatus.idle }
  else { s with error := some msg, status := ProcessingStatus.error }

/-- One `upscale` call, as the pure effect on the four state cells given the
fetch outcome: the session is reset and set `processing`; a rejected fetch
goes to the catch; a non-OK response throws `Server error: <status>`; a
missing body throws `No response body`; otherwise the line loop runs, a
thrown error (only the `error` event) goes to the catch, and when the loop
throws nothing the stream ending decides what remains (the bookkeeping of
`abortControllerRef` lives in the `World` model below). -/
def upscale (s : HookState) (fr : FetchResult) : HookState :=
  let s0 := startSession s
  match fr with
  | FetchResult.thrown msg ab => applyCatch s0 msg ab
  | FetchResult.httpError code => applyCatch s0 ("Server error: " ++ toString code) false
  | FetchResult.success hasBody lines ending =>
    if hasBody then
      match processLines s0 lines with
      | (s1, some msg) => applyCatch s1 msg false
      | (s1, none) =>
        match ending with
        | StreamEnd.done => s1
        | StreamEnd.threw msg ab => applyCatch s1 msg ab
    else applyCatch s0 "No response body" false

/-- Effect of `cancel()` on the state cells: status `idle`, progress cleared;
the error and result cells are untouched. -/
def cancel (s : HookState) : HookState :=
  { s with status := ProcessingStatus.idle, progress := none }

/-- Effect of `reset()`: `cancel()` plus clearing error and result. -/
def reset (s : HookState) : HookState :=
  { cancel s with error := none, result := none }

/-- Outcome of the `fetch` of `/health`: an OK response with a parsed payload,
a non-OK response (the thrown `Backend not available` is caught), a failed
`res.json()`, or a rejected fetch (unreachable host / network error). -/
inductive HealthFetch
  | ok (payload : HealthResponse)
  | notOk (statusCode : Nat)
  | jsonFailed
  | netError (msg : String)
  deriving DecidableEq, Repr

/-- The `checkHealth` operation; the hook state is threaded through unchanged
to express that `checkHealth` touches none of the state cells, and every
failure is caught and turned into `none` (`null`). -/
def checkHealth (s : HookState) (h : HealthFetch) : HookState × Option HealthResponse :=
  match h with
  | HealthFetch.ok p => (s, some p)
  | HealthFetch.notOk _ => (s, none)
  | HealthFetch.jsonFailed => (s, none)
  | HealthFetch.netError _ => (s, none)

/-- Specification-side description of `checkHealth`, following the spec words:
the parsed health payload on success, a null value on any failure. -/
def healthSpec : HealthFetch → Option HealthResponse
  | HealthFetch.ok p => some p
  | HealthFetch.notOk _ => none
  | HealthFetch.jsonFailed => none
  | HealthFetch.netError _ => none

/-- World model for overlapping calls: the state cells, the shared
`abortControllerRef.current` (controllers named by numbers), and the set of
controllers whose `abort()` has been called. -/
structure World where
  state : HookState
  abortRef : Option Nat
  aborted : List Nat
  deriving DecidableEq, Repr

/-- Synchronous prologue of `upscale` in the world model: abort any existing
controller held in the ref, install a fresh controller `cid`, and reset the
state cells to a `processing` session. The call then suspends awaiting the
fetch or the next chunk. -/
def upscaleStart (cid : Nat) (w : World) : World :=
  { state := startSession w.state,
    abortRef := some cid,
    aborted := match w.abortRef with
      | some old => old :: w.aborted
      | none => w.aborted }

/-- What a call whose pending await rejected with an `AbortError` does when
its handlers run: the catch branch sets status `idle` (without touching the
error cell) and the `finally` unconditionally writes `null` into the shared
`abortControllerRef`. -/
def abortRejection (w : World) : World :=
  { w with state := { w.state with status := ProcessingStatus.idle },
           abortRef := none }

/-- The `cancel()` operation in the world model: abort and drop the current
controller when one is held (the guard makes the call safe when none is),
then set status `idle` and clear progress. -/
def cancelWorld (w : World) : World :=
  match w.abortRef with
  | some old => { state := cancel w.state, abortRef := none, aborted := old :: w.aborted }
  | none => { state := cancel w.state, abortRef := none, aborted := w.aborted }

/-- Convenience constructor for a `progress` event line. -/
def progressLine (p : UpscaleProgress) : SSELine :=
  SSELine.data (some (EventData.progress p.step p.total p.percent p.preview p.message))

/-- Convenience constructor for a `start` event line. -/
def startLine : SSELine :=
  SSELine.data (some EventData.start)

/-- Convenience constructor for a `complete` event line. -/
def completeLine (img : String) (os us : Int × Int) (m : Option String) : SSELine :=
  SSELine.data (some (EventData.complete img os us m))

/-- Whether a line is a parsed `complete` event (the only line kind that
writes the result cell or the status). -/
def isCompleteLine : SSELine → Bool
  | SSELine.data (some (EventData.complete _ _ _ _)) => true
  | _ => false

/-- Whether a line is a parsed `error` event (the only line kind that
throws out of the loop). -/
def isErrorLine : SSELine → Bool
  | SSELine.data (some (EventData.error _)) => true
  | _ => false

/-- Whether a line is a terminal (`complete` or `error`) event. -/
def hasTerminalEvent (l : SSELine) : Bool :=
  isCompleteLine l || isErrorLine l

/-- Message thrown by one line, if any. -/
def lineThrows : SSELine → Option String
  | SSELine.data (some (EventData.error msg)) => some msg
  | _ => none

/-- Message of the first throwing line of a list, if any. -/
def linesThrow : List SSELine → Option String
  | [] => none
  | l :: ls =>
    match lineThrows l with
    | some m => some m
    | none => linesThrow ls

/-- Message with which a session started against fetch outcome `fr` ends in
the `error` state, if any: the claimed error causes are a rejection other
than an abort, a non-OK response, a missing body, an `error` event, or a
read-loop rejection other than an abort. -/
def failureMessage : FetchResult → Option String
  | FetchResult.thrown msg ab => if ab then none else some msg
  | FetchResult.httpError code => some ("Server error: " ++ toString code)
  | FetchResult.success hasBody lines ending =>
    if hasBody then
      match linesThrow lines with
      | some m => some m
      | none =>
        match ending with
        | StreamEnd.done => none
        | StreamEnd.threw msg ab => if ab then none else some msg
    else some "No response body"

/-- The controller's initial state. -/
def sIdle : HookState :=
  { status := ProcessingStatus.idle, error := none, progress := none, result := none }

/-- A concrete completed session state. -/
def sComplete : HookState :=
  { status := ProcessingStatus.complete, error := none, progress := none,
    result := some { image := "AAA", originalSize := (100, 100),
                     upscaledSize := (200, 200), method := some "ml" } }

/-- The user-facing operations that mutate state outside of `upscale`. -/
inductive UserOp
  | cancelOp
  | resetOp
  deriving DecidableEq, Repr

/-- Apply a user operation to the state cells. -/
def applyUserOp : UserOp → HookState → HookState
  | UserOp.cancelOp, s => cancel s
  | UserOp.resetOp, s => reset s

/-- The initial world: idle state, no controller installed, nothing aborted. -/
def w0 : World :=
  { state := sIdle, abortRef := none, aborted := [] }

theorem processLine_fields (s s1 : HookState) (l : SSELine)
    (h : processLine s l = Except.ok s1) :
    s1.error = s.error ∧
    (isCompleteLine l = false → (s1.status = s.status ∧ s1.result = s.result)) ∧
    (isCompleteLine l = true → s1.status = ProcessingStatus.complete) := by
  cases l with
  | notData =>
    simp [processLine] at h
    subst h
    simp [isCompleteLine]
  | data payload =>
    cases payload with
    | none =>
      simp [processLine] at h
      subst h
      simp [isCompleteLine]
    | some ed =>
      cases ed <;> simp [processLine] at h <;> subst h <;> simp [isCompleteLine]

theorem lineThrows_of_ok (s s1 : HookState) (l : SSELine)
    (h : processLine s l = Except.ok s1) : lineThrows l = none := by
  cases l with
  | notData => rfl
  | data payload =>
    cases payload with
    | none => rfl
    | some ed => cases ed <;> simp [processLine] at h <;> rfl

theorem lineThrows_of_error (s : HookState) (l : SSELine) (m : String)
    (h : processLine s l = Except.error m) : lineThrows l = some m := by
  cases l with
  | notData => simp [processLine] at h
  | data payload =>
    cases payload with
    | none => simp [processLine] at h
    | some ed =>
      cases ed <;> simp [processLine] at h
      simp [lineThrows, h]

theorem processLines_error_invariant (s : HookState) (ls : List SSELine) :
    (processLines s ls).1.error = s.error := by
  induction ls generalizing s with
  | nil => rfl
  | cons l ls ih =>
    cases hl : processLine s l with
    | ok s1 =>
      have he := (processLine_fields s s1 l hl).1
      simp [processLines, hl, ih s1, he]
    | error m => simp [processLines, hl]

theorem processLines_status_eq (s : HookState) (ls : List SSELine)
    (h : ∀ l ∈ ls, isCompleteLine l = false) :
    (processLines s ls).1.status = s.status := by
  induction ls generalizing s with
  | nil => rfl
  | cons l ls ih =>
    cases hl : processLine s l with
    | ok s1 =>
      have hs := ((processLine_fields s s1 l hl).2.1 (h l (by simp))).1
      have hrest : ∀ a ∈ ls, isCompleteLine a = false := fun a ha => h a (by simp [ha])
      simp [processLines, hl, ih s1 hrest, hs]
    | error m => simp [processLines, hl]

theorem processLines_status_or (s : HookState) (ls : List SSELine) :
    (processLines s ls).1.status = s.status ∨
    (processLines s ls).1.status = ProcessingStatus.complete := by
  induction ls generalizing s with
  | nil => exact Or.inl rfl
  | cons l ls ih =>
    cases hl : processLine s l with
    | ok s1 =>
      have hfields := processLine_fields s s1 l hl
      simp only [processLines, hl]
      rcases ih s1 with h1 | h1
      · cases hc : isCompleteLine l with
        | false => rw [h1, (hfields.2.1 hc).1]; exact Or.inl rfl
        | true => rw [h1, hfields.2.2 hc]; exact Or.inr rfl
      · exact Or.inr h1
    | error m => simp [processLines, hl]

theorem processLines_snd (s : HookState) (ls : List SSELine) :
    (processLines s ls).2 = linesThrow ls := by
  induction ls generalizing s with
  | nil => rfl
  | cons l ls ih =>
    cases hl : processLine s l with
    | ok s1 =>
      have ht := lineThrows_of_ok s s1 l hl
      simp [processLines, hl, ih s1, linesThrow, ht]
    | error m =>
      have ht := lineThrows_of_error s l m hl
      simp [processLines, hl, linesThrow, ht]

theorem linesThrow_of_no_error (ls : List SSELine)
    (h : ∀ l ∈ ls, isErrorLine l = false) : linesThrow ls = none := by
  induction ls with
  | nil => rfl
  | cons l ls ih =>
    have hl : lineThrows l = none := by
      have := h l (by simp)
      cases l with
      | notData => rfl
      | data payload =>
        cases payload with
        | none => rfl
        | some ed => cases ed <;> simp [isErrorLine] at this <;> rfl
    have hrest : ∀ a ∈ ls, isErrorLine a = false := fun a ha => h a (by simp [ha])
    simp [linesThrow, hl, ih hrest]

theorem processLines_inert (l : SSELine) (hl : ∀ s, processLine s l = Except.ok s)
    (s : HookState) (ls1 ls2 : List SSELine) :
    processLines s (ls1 ++ l :: ls2) = processLines s (ls1 ++ ls2) := by
  induction ls1 generalizing s with
  | nil => simp [processLines, hl s]
  | cons a ls1 ih =>
    cases ha : processLine s a with
    | ok s1 => simp [processLines, ha, ih s1]
    | error m => simp [processLines, ha]

/-- C1: for every sequence of valid `progress` events consumed during one
session, the exposed progress after each event equals exactly that event's
payload fields: the progress struct is replaced wholesale, with no merging
and no fields carried over from any earlier progress value, and no other
state cell is touched. -/
theorem c1_progress_replaced_wholesale (s : HookState) (pre : List UpscaleProgress)
    (p : UpscaleProgress) :
    processLines s ((pre ++ [p]).map progressLine) = ({ s with progress := some p }, none) := by
  induction pre generalizing s with
  | nil => rfl
  | cons q pre ih => exact ih { s with progress := some q }

/-- C2: failing-interleaving exhibit. Call 1 begins and suspends awaiting its
stream; call 2 begins while call 1 is in flight and aborts controller 1
before issuing its own request (first three conjuncts). But when the
superseded call 1's pending await rejects with an `AbortError`, its
catch/finally handlers set the status back to `idle` and write `null` over
the shared ref, clobbering call 2's `processing` status and active-request
handle (last two conjuncts): the code has no stale-callback guard. -/
theorem c2_superseded_call_clobbers_new_session :
    (upscaleStart 2 (upscaleStart 1 w0)).state.status = ProcessingStatus.processing ∧
    (upscaleStart 2 (upscaleStart 1 w0)).abortRef = some 2 ∧
    1 ∈ (upscaleStart 2 (upscaleStart 1 w0)).aborted ∧
    (abortRejection (upscaleStart 2 (upscaleStart 1 w0))).state.status = ProcessingStatus.idle ∧
    (abortRejection (upscaleStart 2 (upscaleStart 1 w0))).abortRef = none := by
  refine ⟨rfl, rfl, ?_, rfl, rfl⟩
  simp [upscaleStart, w0]

/-- C3 counterexample: with the controller in the `complete` state, the
`cancel()` operation — which is not `reset()` — already moves the status to
`idle`, so the transition complete → idle is not exclusive to `reset()`. -/
theorem c3_cancel_also_reaches_idle :
    (applyUserOp UserOp.cancelOp sComplete).status = ProcessingStatus.idle ∧
    UserOp.cancelOp ≠ UserOp.resetOp :=
  ⟨rfl, by decide⟩

/-- C3 (amended): from `complete` or `error`, the status moves to `idle` via
`reset()` and equally via `cancel()`: `cancel()` unconditionally sets status
`idle` clearing progress while keeping error and result, and `reset()` does
the same plus clearing error and result. -/
theorem c3_amended_idle_via_reset_or_cancel (s : HookState)
    (_h : s.status = ProcessingStatus.complete ∨ s.status = ProcessingStatus.error) :
    (applyUserOp UserOp.cancelOp s).status = ProcessingStatus.idle ∧
    (applyUserOp UserOp.resetOp s).status = ProcessingStatus.idle ∧
    applyUserOp UserOp.cancelOp s = { s with status := ProcessingStatus.idle, progress := none } ∧
    applyUserOp UserOp.resetOp s =
      { status := ProcessingStatus.idle, error := none, progress := none, result := none } :=
  ⟨rfl, rfl, rfl, rfl⟩

/-- C3 witness: the amended transition at a concrete completed state. -/
theorem c3_amended_witness :
    (sComplete.status = ProcessingStatus.complete ∨ sComplete.status = ProcessingStatus.error) ∧
    (applyUserOp UserOp.cancelOp sComplete).status = ProcessingStatus.idle := by
  have h : sComplete.status = ProcessingStatus.complete ∨
      sComplete.status = ProcessingStatus.error := Or.inl rfl
  exact ⟨h, (c3_amended_idle_via_reset_or_cancel sComplete h).1⟩

/-- C4: cancelling while `processing`. For any state reached by the line loop
from a fresh session that is still `processing` — regardless of how much of
the stream was consumed — `cancel()` yields status `idle` with progress
cleared and the error cell unset (it was cleared at session start and no
loop step writes it); `cancel` is idempotent, and in the world model a
`cancel` with no active controller performs the same state update with no
abort, so it is safe with no active request. -/
theorem c4_cancel_processing_yields_idle (s0 s1 : HookState) (ls : List SSELine)
    (hrun : processLines (startSession s0) ls = (s1, none))
    (_hproc : s1.status = ProcessingStatus.processing) :
    (cancel s1).status = ProcessingStatus.idle ∧
    (cancel s1).progress = none ∧
    (cancel s1).error = none ∧
    cancel (cancel s1) = cancel s1 ∧
    (∀ w : World, w.abortRef = none →
      cancelWorld w = { w with state := cancel w.state, abortRef := none }) := by
  refine ⟨rfl, rfl, ?_, rfl, ?_⟩
  · have he := processLines_error_invariant (startSession s0) ls
    rw [hrun] at he
    simpa [cancel, startSession] using he
  · intro w hw
    simp [cancelWorld, hw]

/-- C4 witness: cancelling after a concrete `start` event. -/
theorem c4_witness :
    processLines (startSession sIdle) [startLine] =
      ({ status := ProcessingStatus.processing, error := none,
         progress := some { step := 0, total := 100, percent := 0 }, result := none }, none) ∧
    (cancel { status := ProcessingStatus.processing, error := none,
              progress := some { step := 0, total := 100, percent := 0 },
              result := none }).status = ProcessingStatus.idle := by
  refine ⟨rfl, ?_⟩
  exact (c4_cancel_processing_yields_idle sIdle _ [startLine] rfl rfl).1

/-- C5: a single malformed-JSON event is skipped: it leaves the state
unchanged and the rest of the stream is processed exactly as if the event
were absent, so a later `complete` event still completes the session (shown
on the spec's concrete stream); an exception other than a JSON parse error —
the throw of the `error` event — is not swallowed by the loop. -/
theorem c5_malformed_event_skipped :
    (∀ s : HookState, processLine s (SSELine.data none) = Except.ok s) ∧
    (∀ (s : HookState) (ls1 ls2 : List SSELine),
      processLines s (ls1 ++ SSELine.data none :: ls2) = processLines s (ls1 ++ ls2)) ∧
    (∀ (s : HookState) (msg : String),
      processLine s (SSELine.data (some (EventData.error msg))) = Except.error msg) ∧
    (upscale sIdle (FetchResult.success true
        [startLine, SSELine.data none,
         completeLine "AAA" (100, 100) (200, 200) (some "ml")] StreamEnd.done)).status =
      ProcessingStatus.complete :=
  ⟨fun _ => rfl,
    fun s ls1 ls2 => processLines_inert (SSELine.data none) (fun _ => rfl) s ls1 ls2,
    fun _ _ => rfl, rfl⟩

/-- C6: a `complete` event populates the result with the event's image,
original size, upscaled size and method, clears progress and sets status
`complete`; no other line kind writes the result cell, and a session start
clears it, so the result is produced exactly once per session, by this
terminal event. -/
theorem c6_complete_event_populates_result (s t t1 : HookState) (img : String)
    (os us : Int × Int) (m : Option String) (l : SSELine)
    (hnc : isCompleteLine l = false) (hok : processLine t l = Except.ok t1) :
    processLine s (completeLine img os us m) =
      Except.ok { s with
        result := some { image := img, originalSize := os, upscaledSize := us, method := m },
        progress := none, status := ProcessingStatus.complete } ∧
    t1.result = t.result ∧
    (startSession s).result = none :=
  ⟨rfl, ((processLine_fields t t1 l hok).2.1 hnc).2, rfl⟩

/-- C6 witness: the complete event at a concrete input, with a concrete
non-complete line leaving the result untouched. -/
theorem c6_witness :
    isCompleteLine SSELine.notData = false ∧
    processLine sIdle (completeLine "AAA" (100, 100) (200, 200) (some "ml")) =
      Except.ok { sIdle with
        result := some { image := "AAA", originalSize := (100, 100),
                         upscaledSize := (200, 200), method := some "ml" },
        progress := none, status := ProcessingStatus.complete } := by
  refine ⟨rfl, ?_⟩
  exact (c6_complete_event_populates_result sIdle sIdle sIdle "AAA" (100, 100) (200, 200)
    (some "ml") SSELine.notData rfl rfl).1

/-- C7: the session ends in the `error` state — with the error message
populated — exactly when one of the claimed causes occurs: an `error` event,
a non-OK HTTP response on stream open, or an exception other than a
cancellation (a rejected fetch, a missing response body, or a rejected
read), as enumerated by `failureMessage`; `upscale` is a total function of
the fetch outcome, so no failure escapes uncaught to the caller. -/
theorem c7_error_state_characterization (s : HookState) (fr : FetchResult) :
    ((upscale s fr).status = ProcessingStatus.error ↔ failureMessage fr ≠ none) ∧
    (∀ msg, failureMessage fr = some msg → (upscale s fr).error = some msg) := by
  cases fr with
  | thrown msg ab =>
    cases ab <;> simp [upscale, applyCatch, failureMessage, startSession]
  | httpError code =>
    simp [upscale, applyCatch, failureMessage, startSession]
  | success hasBody lines ending =>
    cases hasBody with
    | false => simp [upscale, applyCatch, failureMessage, startSession]
    | true =>
      cases hps : processLines (startSession s) lines with
      | mk s1 o =>
        have ho : linesThrow lines = o := by
          have := processLines_snd (startSession s) lines
          rw [hps] at this
          exact this.symm
        cases o with
        | some m =>
          simp [upscale, hps, applyCatch, failureMessage, ho]
        | none =>
          cases ending with
          | done =>
            have hst := processLines_status_or (startSession s) lines
            rw [hps] at hst
            have hne : s1.status ≠ ProcessingStatus.error := by
              rcases hst with h1 | h1
              · have h2 : s1.status = ProcessingStatus.processing := h1
                simp [h2]
              · have h2 : s1.status = ProcessingStatus.complete := h1
                simp [h2]
            simp [upscale, hps, failureMessage, ho, hne]
          | threw m ab =>
            cases ab <;> simp [upscale, hps, applyCatch, failureMessage, ho]

/-- C7 witness: a rejected fetch that is not an abort ends in `error` with
the rejection's message. -/
theorem c7_witness :
    failureMessage (FetchResult.thrown "network down" false) = some "network down" ∧
    ((upscale sIdle (FetchResult.thrown "network down" false)).status =
        ProcessingStatus.error ↔
      failureMessage (FetchResult.thrown "network down" false) ≠ none) ∧
    (upscale sIdle (FetchResult.thrown "network down" false)).error = some "network down" := by
  have h := c7_error_state_characterization sIdle (FetchResult.thrown "network down" false)
  exact ⟨rfl, h.1, h.2 "network down" rfl⟩

/-- C8: `checkHealth` returns the parsed payload exactly on a successful
fetch and `none` (null) on any failure — non-OK response, failed JSON parse,
or network error — and never mutates the controller's state cells; totality
of the function embeds that it never throws to the caller. -/
theorem c8_checkHealth_pure_and_total (s : HookState) (h : HealthFetch) :
    checkHealth s h = (s, healthSpec h) := by
  cases h <;> rfl

/-- C9: a stream that delivers no `complete` and no `error` event never
leaves the session in state `complete`, however the read loop ends: the
session stays `processing` when the stream closes normally, goes `idle` on
an abort, and goes `error` on any other rejection. -/
theorem c9_no_terminal_event_never_complete (s : HookState) (lines : List SSELine)
    (ending : StreamEnd) (h : ∀ l ∈ lines, hasTerminalEvent l = false) :
    (upscale s (FetchResult.success true lines ending)).status ≠
      ProcessingStatus.complete := by
  have hnc : ∀ l ∈ lines, isCompleteLine l = false := by
    intro l hl
    have := h l hl
    simp [hasTerminalEvent] at this
    exact this.1
  have hne : ∀ l ∈ lines, isErrorLine l = false := by
    intro l hl
    have := h l hl
    simp [hasTerminalEvent] at this
    exact this.2
  have hthrow : linesThrow lines = none := linesThrow_of_no_error lines hne
  cases hps : processLines (startSession s) lines with
  | mk s1 o =>
    have ho : o = none := by
      have := processLines_snd (startSession s) lines
      rw [hps, hthrow] at this
      exact this
    have hst : s1.status = ProcessingStatus.processing := by
      have := processLines_status_eq (startSession s) lines hnc
      rw [hps] at this
      exact this
    subst ho
    cases ending with
    | done => simp [upscale, hps, hst]
    | threw m ab => cases ab <;> simp [upscale, hps, applyCatch]

/-- C9 witness: a concrete stream of `start` then one `progress` event with
no terminal event does not end `complete`. -/
theorem c9_witness :
    (∀ l ∈ [startLine, progressLine { step := 1, total := 10, percent := 10 }],
      hasTerminalEvent l = false) ∧
    (upscale sIdle (FetchResult.success true
        [startLine, progressLine { step := 1, total := 10, percent := 10 }]
        StreamEnd.done)).status ≠ ProcessingStatus.complete := by
  have hml : ∀ l ∈ [startLine, progressLine { step := 1, total := 10, percent := 10 }],
      hasTerminalEvent l = false := by decide
  exact ⟨hml, c9_no_terminal_event_never_complete sIdle _ StreamEnd.done hml⟩

/-- C10: a decoded line not beginning with the prefix `"data: "` — empty
lines, SSE comment lines, `event:` field lines — decodes to `notData`; such
a line changes none of status, error, progress or result, and the rest of
the stream is processed exactly as if the line were absent. -/
theorem c10_non_data_lines_ignored (parse : String → Option EventData) (line : String)
    (hne : isDataLine line = false) :
    decodeLine parse line = SSELine.notData ∧
    (∀ s : HookState, processLine s SSELine.notData = Except.ok s) ∧
    (∀ (s : HookState) (ls1 ls2 : List SSELine),
      processLines s (ls1 ++ SSELine.notData :: ls2) = processLines s (ls1 ++ ls2)) :=
  ⟨by simp [decodeLine, hne], fun _ => rfl,
    fun s ls1 ls2 => processLines_inert SSELine.notData (fun _ => rfl) s ls1 ls2⟩

/-- C10 witness: an `event:` field line at a concrete input. -/
theorem c10_witness :
    isDataLine "event: progress" = false ∧
    decodeLine (fun _ => none) "event: progress" = SSELine.notData := by
  have hne : isDataLine "event: progress" = false := by decide
  exact ⟨hne, (c10_non_data_lines_ignored (fun _ => none) "event: progress" hne).1⟩

end Upscaler
